import Mathlib

/-!
A shallow embedding of the binary mesh codec of `Classification3DFiles`
(`src/data/datatypes.py` and `src/data/file_formats.py`).

Python floats are IEEE-754 binary64 values, hence exactly the dyadic
rationals; we model them with the `Dyad` type below.  `struct.pack` /
`struct.unpack` are modelled byte-for-byte, including their error
behaviour (argument-count mismatch, out-of-range integers, type
mismatches).  File I/O is replaced by explicit byte lists.
-/

deriving instance DecidableEq for Except

namespace C3D

/-- Dyadic rational `m * 2 ^ e`; the exact value set of Python floats.
Kept in the canonical form `m = 0 ∧ e = 0` or `m` odd, so that
structural equality is value equality. -/
structure Dyad where
  m : Int
  e : Int
deriving DecidableEq

/-- Strip factors of two from `m` (fuel-driven so the kernel can reduce it). -/
def oddifyF : Nat → Int → Int → Int × Int
  | 0, m, e => (m, e)
  | f + 1, m, e => if m % 2 = 0 then oddifyF f (m / 2) (e + 1) else (m, e)

/-- Canonical dyadic from numerator and exponent. -/
def Dyad.norm (m e : Int) : Dyad :=
  if m = 0 then ⟨0, 0⟩
  else
    let p := oddifyF m.natAbs m e
    ⟨p.1, p.2⟩

/-- Base-two logarithm (floor), fuel-driven. -/
def natLog2F : Nat → Nat → Nat
  | 0, _ => 0
  | f + 1, n => if n ≥ 2 then natLog2F f (n / 2) + 1 else 0

def natLog2 (n : Nat) : Nat := natLog2F n n

/-- Round a nonnegative fraction `n / d` to the nearest integer, ties to even. -/
def roundHalfEvenDiv (n d : Nat) : Nat :=
  let q := n / d
  let r := n % d
  if 2 * r < d then q
  else if 2 * r > d then q + 1
  else q + q % 2

/-- IEEE-754 encoding of a dyadic value into a bit pattern with `ebits`
exponent bits and `mbits` mantissa bits (round to nearest, ties to even,
overflow to infinity).  This is the conversion `struct.pack` performs for
the `f` (8,23) and `d` (11,52) codes. -/
def encodeFloat (ebits mbits : Nat) (v : Dyad) : Nat :=
  let bias : Int := 2 ^ (ebits - 1) - 1
  if v.m = 0 then 0
  else
    let s : Nat := if v.m < 0 then 1 else 0
    let am : Nat := v.m.natAbs
    let fl : Int := (natLog2 am : Int) + v.e
    let emin : Int := 1 - bias
    let eTgt : Int := max fl emin
    let sc : Int := v.e + ((mbits : Int) - eTgt)
    let M : Nat :=
      if 0 ≤ sc then am * 2 ^ sc.toNat
      else roundHalfEvenDiv am (2 ^ (-sc).toNat)
    let M2 : Nat := if M ≥ 2 ^ (mbits + 1) then M / 2 else M
    let e2 : Int := if M ≥ 2 ^ (mbits + 1) then eTgt + 1 else eTgt
    if e2 > bias then
      s * 2 ^ (ebits + mbits) + (2 ^ ebits - 1) * 2 ^ mbits
    else if M2 ≥ 2 ^ mbits then
      s * 2 ^ (ebits + mbits) + (e2 + bias).toNat * 2 ^ mbits + (M2 - 2 ^ mbits)
    else
      s * 2 ^ (ebits + mbits) + M2

/-- Little-endian byte expansion of width `w`. -/
def natToBytesLE : Nat → Nat → List Nat
  | 0, _ => []
  | w + 1, n => n % 256 :: natToBytesLE w (n / 256)

/-- Read a little-endian byte list back into a number. -/
def bytesToNatLE : List Nat → Nat
  | [] => 0
  | b :: bs => b + 256 * bytesToNatLE bs

/-- A value as Python's `struct` sees it. -/
inductive PyVal where
  | int (i : Int)
  | float (v : Dyad)
  | bool (b : Bool)
  | bytes (bs : List Nat)
  | nonfinite (sign : Nat) (isNan : Bool)
deriving DecidableEq

/-- Byte width of each struct format code we use. -/
def codeWidth : Char → Nat
  | 'b' => 1 | 'B' => 1 | 'h' => 2 | 'H' => 2
  | 'i' => 4 | 'I' => 4 | 'q' => 8 | 'Q' => 8
  | 'f' => 4 | 'd' => 8 | 'c' => 1 | 's' => 1 | '?' => 1
  | _ => 0

/-- Integer range accepted by each integer format code. -/
def intRange : Char → Option (Int × Int)
  | 'b' => some (-128, 127)
  | 'B' => some (0, 255)
  | 'h' => some (-32768, 32767)
  | 'H' => some (0, 65535)
  | 'i' => some (-2147483648, 2147483647)
  | 'I' => some (0, 4294967295)
  | 'q' => some (-9223372036854775808, 9223372036854775807)
  | 'Q' => some (0, 18446744073709551615)
  | _ => none

/-- Python treats `bool` as an `int`; integer codes accept both. -/
def pyIndex : PyVal → Option Int
  | .int i => some i
  | .bool b => some (if b then 1 else 0)
  | _ => none

/-- Float codes accept floats, ints and bools. -/
def pyFloat : PyVal → Option Dyad
  | .float v => some v
  | .int i => some ⟨i, 0⟩
  | .bool b => some ⟨if b then 1 else 0, 0⟩
  | _ => none

/-- Truthiness, for the `?` code. -/
def pyTruth : PyVal → Bool
  | .int i => i ≠ 0
  | .float v => v.m ≠ 0
  | .bool b => b
  | .bytes bs => bs ≠ []
  | .nonfinite _ _ => true

/-- Orient little-endian bytes per requested byte order. -/
def orient (little : Bool) (bs : List Nat) : List Nat :=
  if little then bs else bs.reverse

/-- Bit pattern for packing an infinity / NaN. -/
def nonfiniteBits (ebits mbits : Nat) (sign : Nat) (isNan : Bool) : Nat :=
  sign * 2 ^ (ebits + mbits) + (2 ^ ebits - 1) * 2 ^ mbits +
    (if isNan then 2 ^ (mbits - 1) else 0)

/-- Pack one value under one format code, as `struct.pack` does,
including its error cases. -/
def packCode (little : Bool) (c : Char) (v : PyVal) : Except String (List Nat) :=
  match intRange c with
  | some (lo, hi) =>
    match pyIndex v with
    | some i =>
      if lo ≤ i ∧ i ≤ hi then
        .ok (orient little (natToBytesLE (codeWidth c) ((i % (2 ^ (8 * codeWidth c))).toNat)))
      else .error "struct.error: argument out of range"
    | none => .error "struct.error: required argument is not an integer"
  | none =>
    if c = 'f' ∨ c = 'd' then
      let eb := if c = 'f' then 8 else 11
      let mb := if c = 'f' then 23 else 52
      match v with
      | .nonfinite s n => .ok (orient little (natToBytesLE (codeWidth c) (nonfiniteBits eb mb s n)))
      | _ =>
        match pyFloat v with
        | some dv => .ok (orient little (natToBytesLE (codeWidth c) (encodeFloat eb mb dv)))
        | none => .error "struct.error: required argument is not a float"
    else if c = '?' then
      .ok [if pyTruth v then 1 else 0]
    else if c = 'c' then
      match v with
      | .bytes [b] => .ok [b % 256]
      | _ => .error "struct.error: char format requires a bytes object of length 1"
    else if c = 's' then
      match v with
      | .bytes bs => .ok [bs.headD 0 % 256]
      | _ => .error "struct.error: argument for s must be a bytes object"
    else .error "struct.error: bad char in struct format"

/-- Pack a list of values once the argument count is known to match. -/
def packList (little : Bool) : List Char → List PyVal → Except String (List Nat)
  | [], _ => .ok []
  | c :: cs, [] => do
    let bs ← packCode little c (.int 0)
    let more ← packList little cs []
    .ok (bs ++ more)
  | c :: cs, v :: vs => do
    let bs ← packCode little c v
    let more ← packList little cs vs
    .ok (bs ++ more)

/-- `struct.pack`: checks the argument count first (each of our codes
consumes exactly one argument), then packs left to right. -/
def structPack (little : Bool) (fmt : List Char) (vs : List PyVal) : Except String (List Nat) :=
  if vs.length = fmt.length then packList little fmt vs
  else .error "struct.error: pack expected items"

/-- `struct.calcsize`. -/
def structCalcsize (fmt : List Char) : Nat := (fmt.map codeWidth).sum

/-- IEEE-754 decoding of a bit pattern into a Python value. -/
def decodeFloatBits (ebits mbits : Nat) (bits : Nat) : PyVal :=
  let s := bits / 2 ^ (ebits + mbits) % 2
  let ef := bits / 2 ^ mbits % 2 ^ ebits
  let mant := bits % 2 ^ mbits
  let bias : Int := 2 ^ (ebits - 1) - 1
  let sgn : Int := if s = 1 then -1 else 1
  if ef = 2 ^ ebits - 1 then .nonfinite s (mant ≠ 0)
  else if ef = 0 then
    if mant = 0 then .float ⟨0, 0⟩
    else .float (Dyad.norm (sgn * mant) (1 - bias - mbits))
  else .float (Dyad.norm (sgn * (2 ^ mbits + mant)) ((ef : Int) - bias - mbits))

/-- Unpack one value under one format code from exactly `codeWidth c` bytes. -/
def unpackCode (little : Bool) (c : Char) (bs : List Nat) : PyVal :=
  let le := if little then bs else bs.reverse
  match c with
  | 'b' | 'h' | 'i' | 'q' =>
    let w := codeWidth c
    let u := bytesToNatLE le
    if u ≥ 2 ^ (8 * w - 1) then .int ((u : Int) - 2 ^ (8 * w)) else .int u
  | 'B' | 'H' | 'I' | 'Q' => .int (bytesToNatLE le)
  | 'f' => decodeFloatBits 8 23 (bytesToNatLE le)
  | 'd' => decodeFloatBits 11 52 (bytesToNatLE le)
  | '?' => .bool (le.headD 0 ≠ 0)
  | 'c' | 's' => .bytes bs
  | _ => .int 0

/-- Split a correctly sized buffer into one value per format code. -/
def unpackChop (little : Bool) : List Char → List Nat → List PyVal
  | [], _ => []
  | c :: cs, bs =>
    unpackCode little c (bs.take (codeWidth c)) :: unpackChop little cs (bs.drop (codeWidth c))

/-- UTF-8 encoding of one Unicode scalar value. -/
def utf8EncodeChar (c : Nat) : List Nat :=
  if c < 128 then [c]
  else if c < 2048 then [192 + c / 64, 128 + c % 64]
  else if c < 65536 then [224 + c / 4096, 128 + c / 64 % 64, 128 + c % 64]
  else [240 + c / 262144, 128 + c / 4096 % 64, 128 + c / 64 % 64, 128 + c % 64]

/-- UTF-8 encoding of a text (Python `str.encode("utf-8")`); the text is
given as its list of Unicode scalar values. -/
def utf8Encode (s : List Nat) : List Nat := (s.map utf8EncodeChar).flatten

/-- Fuel-driven UTF-8 decoder (Python `bytes.decode("utf-8")`); checks
continuation bytes and fails on malformed leading bytes. -/
def utf8DecodeF : Nat → List Nat → Option (List Nat)
  | _, [] => some []
  | 0, _ => none
  | f + 1, b :: rest =>
    if b < 128 then do
      let r ← utf8DecodeF f rest
      some (b :: r)
    else if b < 192 then none
    else if b < 224 then
      match rest with
      | b1 :: rest1 =>
        if 128 ≤ b1 ∧ b1 < 192 then do
          let r ← utf8DecodeF f rest1
          some (((b - 192) * 64 + (b1 - 128)) :: r)
        else none
      | _ => none
    else if b < 240 then
      match rest with
      | b1 :: b2 :: rest2 =>
        if (128 ≤ b1 ∧ b1 < 192) ∧ (128 ≤ b2 ∧ b2 < 192) then do
          let r ← utf8DecodeF f rest2
          some (((b - 224) * 4096 + (b1 - 128) * 64 + (b2 - 128)) :: r)
        else none
      | _ => none
    else if b < 248 then
      match rest with
      | b1 :: b2 :: b3 :: rest3 =>
        if (128 ≤ b1 ∧ b1 < 192) ∧ (128 ≤ b2 ∧ b2 < 192) ∧ (128 ≤ b3 ∧ b3 < 192) then do
          let r ← utf8DecodeF f rest3
          some (((b - 240) * 262144 + (b1 - 128) * 4096 + (b2 - 128) * 64 + (b3 - 128)) :: r)
        else none
      | _ => none
    else none

def utf8Decode (l : List Nat) : Option (List Nat) := utf8DecodeF l.length l

/-! ### `src/data/datatypes.py` -/

/-- `STRUCT_FORMAT_MAP`: data-type name to struct format string. -/
def STRUCT_FORMAT_MAP : List (String × List Char) :=
  [("int8", ['b']), ("int16", ['h']), ("int32", ['i']), ("int64", ['q']),
   ("uint8", ['B']), ("uint16", ['H']), ("uint32", ['I']), ("uint64", ['Q']),
   ("float", ['f']), ("double", ['d']), ("char", ['c']), ("string", ['B', 's']),
   ("bool", ['?'])]

/-- `is_valid_type`: the type is a key of the map (every stored value is
non-`None`, so the source's extra `is not None` check is membership). -/
def is_valid_type (data_type : String) : Bool :=
  (List.lookup data_type STRUCT_FORMAT_MAP).isSome

/-- `get_struct_format`: format string of a type, `ValueError` otherwise. -/
def get_struct_format (data_type : String) : Except String (List Char) :=
  match List.lookup data_type STRUCT_FORMAT_MAP with
  | some f => .ok f
  | none => .error "ValueError: invalid data type"

/-- The Python default value of `pack_string`'s `length_format` argument. -/
def defaultLengthFormat : List Char := ['B']

/-- `pack_string`: length of the UTF-8 encoding packed with `length_format`,
followed by the encoded bytes. -/
def pack_string (little : Bool) (length_format : List Char) (data : List Nat) :
    Except String (List Nat) := do
  let encoded := utf8Encode data
  let p ← structPack little length_format [.int encoded.length]
  .ok (p ++ encoded)

/-- `unpack_string`: read `calcsize(length_format)` bytes, unpack them and
take element `[0]` as the string length, then read and UTF-8-decode that
many bytes.  A negative length reads the rest of the stream, like Python's
`file.read`.  Returns the text and the unread remainder of the stream. -/
def unpack_string (little : Bool) (length_format : List Char) (stream : List Nat) :
    Except String (List Nat × List Nat) :=
  let n := structCalcsize length_format
  let taken := stream.take n
  if taken.length = n then
    match (unpackChop little length_format taken).head? with
    | some (.int len) =>
      let rest := stream.drop n
      let body := if len < 0 then rest else rest.take len.toNat
      match utf8Decode body with
      | some txt => .ok (txt, if len < 0 then [] else rest.drop len.toNat)
      | none => .error "UnicodeDecodeError"
    | some _ => .error "TypeError: read length must be an integer"
    | none => .error "IndexError: no length field"
  else .error "struct.error: unpack requires a buffer"

/-! ### `src/data/file_formats.py`: schema model -/

/-- `Attribute`: name, data type and component count (`size`).  The source
does not restrict `size`, so it is any Python int. -/
structure Attribute where
  name : String
  type : String
  size : Int
deriving DecidableEq

/-- `Attribute.__init__`: raises `ValueError` on an unregistered type;
`size` is stored unchecked. -/
def Attribute.make (name data_type : String) (size : Int) : Except String Attribute :=
  if is_valid_type data_type then .ok ⟨name, data_type, size⟩
  else .error "ValueError: invalid data type"

/-- `Attribute.get_format_string`: the scalar format repeated `size` times
(Python string repetition; empty for `size ≤ 0`).  Fails on an unregistered
type exactly where the source's `get_struct_format` raises. -/
def Attribute.get_format_string (a : Attribute) : Except String (List Char) := do
  let f ← get_struct_format a.type
  .ok (List.replicate a.size.toNat f).flatten

/-- `Block`: name, ordered attributes, optional terminator attribute. -/
structure Block where
  name : String
  attributes : List Attribute
  block_terminator : Option Attribute
deriving DecidableEq

/-- `FormatSpec`: name, blocks, endianness, face layout. -/
structure FormatSpec where
  name : String
  blocks : List Block
  endian : String
  face_format : String
deriving DecidableEq

/-- `FormatSpec.__init__`: raises `ValueError` unless `endian` is
`"little"`/`"big"` and `face_format` is `"sequential"`/`"seperate"` (the
source spells it that way); the endianness check runs first. -/
def FormatSpec.make (name : String) (blocks : List Block)
    (endian face_format : String) : Except String FormatSpec :=
  if endian = "little" ∨ endian = "big" then
    if face_format = "sequential" ∨ face_format = "seperate" then
      .ok ⟨name, blocks, endian, face_format⟩
    else .error "ValueError: invalid face format"
  else .error "ValueError: invalid endianness"

/-- The mesh model produced by OBJ ingestion (`§3 MeshModel` of the spec;
the OBJ text parser itself is an external collaborator).  Coordinates are
Python floats, indices Python ints. -/
structure MeshModel where
  positions : List (List Dyad)
  normals : List (List Dyad)
  texcoords : List (List Dyad)
  faces : List (List Int)
  face_normals : List (List Int)
  face_texcoords : List (List Int)
deriving DecidableEq

/-- Python `name.split("_")` on the character list of a name. -/
def splitChar (sep : Char) : List Char → List (List Char)
  | [] => [[]]
  | c :: rest =>
    match splitChar sep rest with
    | [] => [[]]
    | g :: gs => if c = sep then [] :: g :: gs else (c :: g) :: gs

def splitUnder (s : String) : List (List Char) := splitChar '_' s.toList

/-- `len(name.split("_")) == 2 and name.split("_")[1] == "count"`. -/
def isCountAttr (name : String) : Bool :=
  match splitUnder name with
  | [_, p] => p = "count".toList
  | _ => false

/-- `name.split("_")[0]`. -/
def countStem (name : String) : List Char :=
  match splitUnder name with
  | p :: _ => p
  | [] => []

/-! ### Encoder (`FormatSpec.create_binary_from_obj`, binary-writing half) -/

/-- The three face index arrays, as the encoder's mutable local lists
`faces`, `face_normals`, `face_texcoords` (drained in place under the
`sequential` layout). -/
structure EncSt where
  faces : List (List Int)
  face_normals : List (List Int)
  face_texcoords : List (List Int)
deriving DecidableEq

/-- Python list indexing, `IndexError` out of range. -/
def getIdx (l : List (List Int)) (i : Nat) : Except String (List Int) :=
  match l.get? i with
  | some x => .ok x
  | none => .error "IndexError: list index out of range"

/-- Inner scan of the face branches: walk the block's attributes looking
for the two companion names, write the row at index `i` of the matching
array for each hit, and stop after two hits (the `count == 2` break). -/
def scanPair (little : Bool) (n1 : String) (a1 : List (List Int))
    (n2 : String) (a2 : List (List Int)) (i : Nat) :
    Nat → List Attribute → Except String (List Nat)
  | _, [] => .ok []
  | cnt, att2 :: rest =>
    if att2.name = n1 then do
      let row ← getIdx a1 i
      let fmt ← att2.get_format_string
      let bs ← structPack little fmt (row.map PyVal.int)
      if cnt + 1 = 2 then .ok bs
      else do
        let more ← scanPair little n1 a1 n2 a2 i (cnt + 1) rest
        .ok (bs ++ more)
    else if att2.name = n2 then do
      let row ← getIdx a2 i
      let fmt ← att2.get_format_string
      let bs ← structPack little fmt (row.map PyVal.int)
      if cnt + 1 = 2 then .ok bs
      else do
        let more ← scanPair little n1 a1 n2 a2 i (cnt + 1) rest
        .ok (bs ++ more)
    else scanPair little n1 a1 n2 a2 i cnt rest

/-- `for i, row in enumerate(anchor)`: write the row, then under the
`sequential` layout interleave the companion arrays via `scanPair`. -/
def emitFaceLoop (little seq : Bool) (blockAtts : List Attribute) (att : Attribute)
    (n1 : String) (a1 : List (List Int)) (n2 : String) (a2 : List (List Int)) :
    Nat → List (List Int) → Except String (List Nat)
  | _, [] => .ok []
  | i, row :: rest => do
    let fmt ← att.get_format_string
    let bs ← structPack little fmt (row.map PyVal.int)
    let extra ← if seq then scanPair little n1 a1 n2 a2 i 0 blockAtts else .ok []
    let more ← emitFaceLoop little seq blockAtts att n1 a1 n2 a2 (i + 1) rest
    .ok (bs ++ extra ++ more)

/-- `for row in array: f.write(struct.pack(prefix + fmt, *row))`. -/
def packRows (little : Bool) (att : Attribute) : List (List PyVal) → Except String (List Nat)
  | [] => .ok []
  | row :: rest => do
    let fmt ← att.get_format_string
    let bs ← structPack little fmt row
    let more ← packRows little att rest
    .ok (bs ++ more)

/-- The string the source packs in its string branch (`placeholder = "test"`). -/
def testPlaceholder : List Nat := [116, 101, 115, 116]

/-- One attribute of the encoder's per-attribute dispatch, in source order:
position/vertex, normal, texcoord, face, face_normal, face_texcoord,
`<stem>_count`, string-typed, zero fallback.  Returns the written bytes and
the updated face arrays. -/
def encodeAttr (little seq : Bool) (blockAtts : List Attribute) (mesh : MeshModel)
    (st : EncSt) (att : Attribute) : Except String (List Nat × EncSt) :=
  if att.name = "position" ∨ att.name = "vertex" then do
    let bs ← packRows little att (mesh.positions.map (List.map PyVal.float))
    .ok (bs, st)
  else if att.name = "normal" then do
    let bs ← packRows little att (mesh.normals.map (List.map PyVal.float))
    .ok (bs, st)
  else if att.name = "texcoord" then do
    let bs ← packRows little att (mesh.texcoords.map (List.map PyVal.float))
    .ok (bs, st)
  else if att.name = "face" then do
    let bs ← emitFaceLoop little seq blockAtts att
      "face_normal" st.face_normals "face_texcoord" st.face_texcoords 0 st.faces
    .ok (bs, if seq then { st with face_normals := [], face_texcoords := [] } else st)
  else if att.name = "face_normal" then do
    let bs ← emitFaceLoop little seq blockAtts att
      "face_texcoord" st.face_texcoords "face" st.faces 0 st.face_normals
    .ok (bs, if seq then { st with faces := [], face_texcoords := [] } else st)
  else if att.name = "face_texcoord" then do
    let bs ← emitFaceLoop little seq blockAtts att
      "face_normal" st.face_normals "face" st.faces 0 st.face_texcoords
    .ok (bs, if seq then { st with faces := [], face_normals := [] } else st)
  else if isCountAttr att.name then
    if countStem att.name = "vertex".toList then do
      let fmt ← att.get_format_string
      let bs ← structPack little fmt [.int (mesh.positions.length : Int)]
      .ok (bs, st)
    else if countStem att.name = "normal".toList then do
      let fmt ← att.get_format_string
      let bs ← structPack little fmt [.int (mesh.normals.length : Int)]
      .ok (bs, st)
    else if countStem att.name = "texcoord".toList then do
      let fmt ← att.get_format_string
      let bs ← structPack little fmt [.int (mesh.texcoords.length : Int)]
      .ok (bs, st)
    else if countStem att.name = "face".toList then do
      let fmt ← att.get_format_string
      let bs ← structPack little fmt [.int (st.faces.length : Int)]
      .ok (bs, st)
    else .ok ([], st)
  else if att.type = "string" then do
    let fmt ← att.get_format_string
    let bs ← pack_string little fmt testPlaceholder
    .ok (bs, st)
  else do
    let fmt ← att.get_format_string
    let bs ← structPack little fmt [.int 0]
    .ok (bs, st)

/-- Fold `encodeAttr` over the attributes of one block. -/
def encodeAttrs (little seq : Bool) (blockAtts : List Attribute) (mesh : MeshModel) :
    EncSt → List Attribute → Except String (List Nat × EncSt)
  | st, [] => .ok ([], st)
  | st, att :: rest => do
    let (bs, st1) ← encodeAttr little seq blockAtts mesh st att
    let (more, st2) ← encodeAttrs little seq blockAtts mesh st1 rest
    .ok (bs ++ more, st2)

/-- One block: its attributes, then the optional terminator packed with
value `0`. -/
def encodeBlock (little seq : Bool) (mesh : MeshModel) (st : EncSt) (b : Block) :
    Except String (List Nat × EncSt) := do
  let (bs, st1) ← encodeAttrs little seq b.attributes mesh st b.attributes
  match b.block_terminator with
  | none => .ok (bs, st1)
  | some t => do
    let fmt ← t.get_format_string
    let tb ← structPack little fmt [.int 0]
    .ok (bs ++ tb, st1)

def encodeBlocks (little seq : Bool) (mesh : MeshModel) :
    EncSt → List Block → Except String (List Nat × EncSt)
  | st, [] => .ok ([], st)
  | st, b :: rest => do
    let (bs, st1) ← encodeBlock little seq mesh st b
    let (more, st2) ← encodeBlocks little seq mesh st1 rest
    .ok (bs ++ more, st2)

/-- `FormatSpec.create_binary_from_obj`, with the OBJ file already ingested
into a `MeshModel` and the output file replaced by the returned byte list.
`prefix` is `"<"` iff `endian == "little"`. -/
def create_binary_from_obj (spec : FormatSpec) (mesh : MeshModel) :
    Except String (List Nat) := do
  let little := spec.endian = "little"
  let seq := spec.face_format = "sequential"
  let st0 : EncSt := ⟨mesh.faces, mesh.face_normals, mesh.face_texcoords⟩
  let (bs, _) ← encodeBlocks little seq mesh st0 spec.blocks
  .ok bs

/-! ### Decoder (`FormatSpec.binary_to_txt`)

The text dump is modelled as a list of structured entries: one entry per
`out.write` that carries data (block names, attribute names, counts,
arrays, scalars, tuples, strings, and the extra face lists written after a
sequential pass).  Pure indentation/formatting writes are not modelled. -/

inductive DumpEntry where
  | blockName (s : String)
  | attrName (s : String)
  | countVal (v : PyVal)
  | strVal (s : List Nat)
  | scalarVal (v : PyVal)
  | tupleVal (vs : List PyVal)
  | arrayVal (rows : List (List PyVal))
  | extraVal (s : String) (rows : List (List PyVal))
deriving DecidableEq

/-- The per-block `count_dict`. -/
abbrev CountDict := List (String × PyVal)

def dictGet (d : CountDict) (k : String) : Option PyVal := List.lookup k d

def dictSet (d : CountDict) (k : String) (v : PyVal) : CountDict :=
  match d with
  | [] => [(k, v)]
  | (k1, v1) :: rest => if k1 = k then (k, v) :: rest else (k1, v1) :: dictSet rest k v

/-- `data[0]`. -/
def headE (l : List PyVal) : Except String PyVal :=
  match l.head? with
  | some v => .ok v
  | none => .error "IndexError: tuple index out of range"

/-- `range(count)` length: Python bools are ints, negatives give an empty
range, non-integers raise `TypeError`. -/
def asCount (v : PyVal) : Except String Nat :=
  match v with
  | .int i => .ok i.toNat
  | .bool b => .ok (if b then 1 else 0)
  | _ => .error "TypeError: range argument must be an integer"

/-- `struct.unpack(prefix + fmt, f.read(calcsize(prefix + fmt)))` for one
attribute; errors if the stream is too short. -/
def unpackAtt (little : Bool) (att : Attribute) (stream : List Nat) :
    Except String (List PyVal × List Nat) := do
  let fmt ← att.get_format_string
  let n := structCalcsize fmt
  let taken := stream.take n
  if taken.length = n then
    .ok (unpackChop little fmt taken, stream.drop n)
  else .error "struct.error: unpack requires a buffer of the right length"

/-- Inner scan of the decoder's sequential array branch: for the current
index, read one tuple for every *other* face-family attribute of the block,
appending it to the list for its name. -/
def readOthers (little : Bool) (attName : String) (stream : List Nat) :
    List Attribute →
    Except String (List (List PyVal) × List (List PyVal) × List (List PyVal) × List Nat)
  | [] => .ok ([], [], [], stream)
  | att2 :: rest =>
    if att2.name = "face" ∧ att2.name ≠ attName then do
      let (data2, s1) ← unpackAtt little att2 stream
      let (fs, ns, ts, s2) ← readOthers little attName s1 rest
      .ok (data2 :: fs, ns, ts, s2)
    else if att2.name = "face_normal" ∧ att2.name ≠ attName then do
      let (data2, s1) ← unpackAtt little att2 stream
      let (fs, ns, ts, s2) ← readOthers little attName s1 rest
      .ok (fs, data2 :: ns, ts, s2)
    else if att2.name = "face_texcoord" ∧ att2.name ≠ attName then do
      let (data2, s1) ← unpackAtt little att2 stream
      let (fs, ns, ts, s2) ← readOthers little attName s1 rest
      .ok (fs, ns, data2 :: ts, s2)
    else readOthers little attName stream rest

/-- The decoder's `for i in range(count)` loop: read one tuple of the
governing attribute per index (breaking immediately for a face-family
attribute once `done_sequentail` is set), plus the interleaved face-family
companions when the layout is sequential. -/
def readRows (little seq : Bool) (blockAtts : List Attribute) (att : Attribute)
    (faceFam done : Bool) :
    Nat → List Nat →
    Except String (List (List PyVal) × List (List PyVal) × List (List PyVal) ×
      List (List PyVal) × List Nat)
  | 0, s => .ok ([], [], [], [], s)
  | k + 1, s =>
    if faceFam ∧ done then .ok ([], [], [], [], s)
    else do
      let (data, s1) ← unpackAtt little att s
      let (fs, ns, ts, s2) ←
        if faceFam ∧ seq then readOthers little att.name s1 blockAtts
        else .ok ([], [], [], s1)
      let (rows, fs2, ns2, ts2, s3) ← readRows little seq blockAtts att faceFam done k s2
      .ok (data :: rows, fs ++ fs2, ns ++ ns2, ts ++ ts2, s3)

/-- The chain of branches after the dynamic-array test: `<stem>_count`,
string-typed, plain scalar/tuple (face-family names fall through with no
output). -/
def decodeAttrRest (little : Bool) (stream : List Nat) (dict : CountDict)
    (done : Bool) (att : Attribute) (header : List DumpEntry) :
    Except String (List DumpEntry × List Nat × CountDict × Bool) :=
  if isCountAttr att.name then do
    let (data, s1) ← unpackAtt little att stream
    let v ← headE data
    let stem := countStem att.name
    let key2 : String := if stem = "position".toList then "vertex" else ⟨stem⟩
    let dict1 :=
      if stem = "face".toList then
        dictSet (dictSet dict "face_normal" v) "face_texcoord" v
      else dict
    .ok (header ++ [.countVal v], s1, dictSet dict1 key2 v, done)
  else if att.type = "string" then do
    let fmt ← att.get_format_string
    let (txt, s1) ← unpack_string little fmt stream
    .ok (header ++ [.strVal txt], s1, dict, done)
  else if att.name = "face" ∨ att.name = "face_normal" ∨ att.name = "face_texcoord" then
    .ok (header, stream, dict, done)
  else do
    let (data, s1) ← unpackAtt little att stream
    let fmt ← att.get_format_string
    if fmt.length > 1 then .ok (header ++ [.tupleVal data], s1, dict, done)
    else do
      let v ← headE data
      .ok (header ++ [.scalarVal v], s1, dict, done)

/-- One attribute of the decoder walk.  State: the unread stream, the
per-block `count_dict`, and the `done_sequentail` flag. -/
def decodeAttr (little seq : Bool) (blockAtts : List Attribute) (stream : List Nat)
    (dict : CountDict) (done : Bool) (att : Attribute) :
    Except String (List DumpEntry × List Nat × CountDict × Bool) :=
  let faceFam : Bool := att.name = "face" ∨ att.name = "face_normal" ∨
    att.name = "face_texcoord"
  let header : List DumpEntry :=
    if faceFam ∧ done then [] else [.attrName att.name]
  let key := if att.name = "position" then "vertex" else att.name
  match dictGet dict key with
  | some cv =>
    if ¬done ∨ ¬faceFam then do
      let cnt ← asCount cv
      let (rows, fs, ns, ts, s1) ← readRows little seq blockAtts att faceFam done cnt stream
      let entries := header ++ [.arrayVal rows]
      if seq ∧ ¬done then
        let names := blockAtts.map Attribute.name
        let e1 := if "face" ∈ names ∧ ¬att.name = "face" then
          [DumpEntry.extraVal "face" fs] else []
        let e2 := if "face_normal" ∈ names ∧ ¬att.name = "face_normal" then
          [DumpEntry.extraVal "face_normal" ns] else []
        let e3 := if "face_texcoord" ∈ names ∧ ¬att.name = "face_texcoord" then
          [DumpEntry.extraVal "face_texcoord" ts] else []
        .ok (entries ++ e1 ++ e2 ++ e3, s1, dict, true)
      else .ok (entries, s1, dict, done)
    else decodeAttrRest little stream dict done att header
  | none => decodeAttrRest little stream dict done att header

def decodeAttrs (little seq : Bool) (blockAtts : List Attribute) :
    List Nat → CountDict → Bool → List Attribute →
    Except String (List DumpEntry × List Nat)
  | stream, _, _, [] => .ok ([], stream)
  | stream, dict, done, att :: rest => do
    let (es, s1, d1, done1) ← decodeAttr little seq blockAtts stream dict done att
    let (more, s2) ← decodeAttrs little seq blockAtts s1 d1 done1 rest
    .ok (es ++ more, s2)

/-- One block: fresh `count_dict` and `done_sequentail`; terminators are
never read back by the source decoder. -/
def decodeBlock (little seq : Bool) (stream : List Nat) (b : Block) :
    Except String (List DumpEntry × List Nat) := do
  let (es, s1) ← decodeAttrs little seq b.attributes stream [] false b.attributes
  .ok (DumpEntry.blockName b.name :: es, s1)

def decodeBlocks (little seq : Bool) :
    List Nat → List Block → Except String (List DumpEntry × List Nat)
  | stream, [] => .ok ([], stream)
  | stream, b :: rest => do
    let (es, s1) ← decodeBlock little seq stream b
    let (more, s2) ← decodeBlocks little seq s1 rest
    .ok (es ++ more, s2)

/-- `FormatSpec.binary_to_txt`, with the binary file as a byte list and the
text file as the structured dump. -/
def binary_to_txt (spec : FormatSpec) (stream : List Nat) :
    Except String (List DumpEntry) := do
  let little := spec.endian = "little"
  let seq := spec.face_format = "sequential"
  let (es, _) ← decodeBlocks little seq stream spec.blocks
  .ok es

/-! ### Concrete instances used in the claim theorems -/

/-- Python float `0.0`. -/
def dy0 : Dyad := ⟨0, 0⟩

/-- Python float `1.0`. -/
def dy1 : Dyad := ⟨1, 0⟩

/-- The one-triangle mesh of the literal scenario: positions
`[(0,0,0),(1,0,0),(0,1,0)]`, one face `(1,2,3)`, no normals/texcoords.
OBJ ingestion records zero placeholders for the missing normal and
texcoord indices of the face. -/
def triMesh : MeshModel :=
  { positions := [[dy0, dy0, dy0], [dy1, dy0, dy0], [dy0, dy1, dy0]]
    normals := []
    texcoords := []
    faces := [[1, 2, 3]]
    face_normals := [[0, 0, 0]]
    face_texcoords := [[0, 0, 0]] }

/-- The literal scenario's format: 32-bit unsigned `vertex_count`,
3 × 32-bit float `position`, 32-bit unsigned `face_count`,
3 × 32-bit unsigned `face`; big-endian, sequential. -/
def triSpec : FormatSpec :=
  { name := "example"
    blocks :=
      [⟨"vertex_data", [⟨"vertex_count", "uint32", 1⟩, ⟨"position", "float", 3⟩], none⟩,
       ⟨"face_data", [⟨"face_count", "uint32", 1⟩, ⟨"face", "uint32", 3⟩], none⟩]
    endian := "big"
    face_format := "sequential" }

/-- The literal scenario's expected bytes: `00000003`, three 12-byte
big-endian float triples (`1.0f = 3F800000`), `00000001`, then
`000000010000000200000003`. -/
def triBytes : List Nat :=
  [0, 0, 0, 3,
   0, 0, 0, 0,  0, 0, 0, 0,  0, 0, 0, 0,
   63, 128, 0, 0,  0, 0, 0, 0,  0, 0, 0, 0,
   0, 0, 0, 0,  63, 128, 0, 0,  0, 0, 0, 0,
   0, 0, 0, 1,
   0, 0, 0, 1,  0, 0, 0, 2,  0, 0, 0, 3]

/-- The literal scenario's expected decode: `vertex_count = 3`, three
position tuples, `face_count = 1`, one face tuple `(1,2,3)`. -/
def triDump : List DumpEntry :=
  [.blockName "vertex_data",
   .attrName "vertex_count", .countVal (.int 3),
   .attrName "position",
   .arrayVal [[.float dy0, .float dy0, .float dy0],
              [.float dy1, .float dy0, .float dy0],
              [.float dy0, .float dy1, .float dy0]],
   .blockName "face_data",
   .attrName "face_count", .countVal (.int 1),
   .attrName "face", .arrayVal [[.int 1, .int 2, .int 3]]]

/-- A sequential spec with two attributes named `"face"` in one block. -/
def specDoubleFace : FormatSpec :=
  { name := "double_face"
    blocks := [⟨"b", [⟨"face", "uint32", 3⟩, ⟨"face", "uint32", 3⟩], none⟩]
    endian := "big"
    face_format := "sequential" }

/-- A spec whose only attribute has an unrecognized name and cardinality 2. -/
def specMystery2 : FormatSpec :=
  { name := "mystery2"
    blocks := [⟨"b", [⟨"mystery", "uint8", 2⟩], none⟩]
    endian := "big"
    face_format := "sequential" }

/-- A spec containing a string-typed attribute whose name matches the
`<stem>_count` pattern with an unknown stem. -/
def specBarCount : FormatSpec :=
  { name := "bar_count_spec"
    blocks := [⟨"b", [⟨"bar_count", "string", 1⟩], none⟩]
    endian := "big"
    face_format := "sequential" }

/-- The wire bytes of one zero-valued scalar of a given type (all widths
encode the zero scalar as zero bytes, in either byte order). -/
def zeroBytesOf (t : String) : List Nat :=
  List.replicate (structCalcsize ((List.lookup t STRUCT_FORMAT_MAP).getD [])) 0

/-- The zero value a scalar of a given type decodes to. -/
def zeroValOf (t : String) : PyVal :=
  if t = "float" ∨ t = "double" then .float ⟨0, 0⟩
  else if t = "bool" then .bool false
  else .int 0

/-- The attributes used by the drain witness. -/
def faceAtt : Attribute := ⟨"face", "uint32", 3⟩

def faceNormalAtt : Attribute := ⟨"face_normal", "uint32", 3⟩

/-- The face-array state right before the witness encode. -/
def stTri : EncSt := ⟨[[1, 2, 3]], [[0, 0, 0]], [[0, 0, 0]]⟩

/-- The face-array state after the `"face"` attribute has been encoded
under the sequential layout: companions drained, `faces` kept. -/
def stTriAfter : EncSt := ⟨[[1, 2, 3]], [], []⟩

/-- Bytes the witness `"face"` encode writes: the face `(1,2,3)` followed
by the interleaved zero face-normal row. -/
def faceBytesW : List Nat :=
  [0, 0, 0, 1, 0, 0, 0, 2, 0, 0, 0, 3, 0, 0, 0, 0, 0, 0, 0, 0, 0, 0, 0, 0]

/-! ### Basic lemmas about the byte machinery -/

theorem natToBytesLE_length (w : Nat) : ∀ n, (natToBytesLE w n).length = w := by
  induction w with
  | zero => intro n; rfl
  | succ w ih => intro n; simp [natToBytesLE, ih]

theorem bytesToNatLE_natToBytesLE (w : Nat) :
    ∀ n, n < 2 ^ (8 * w) → bytesToNatLE (natToBytesLE w n) = n := by
  induction w with
  | zero => intro n h; simp at h; simp [natToBytesLE, bytesToNatLE, h]
  | succ w ih =>
    intro n h
    have hd : n / 256 < 2 ^ (8 * w) := by
      have h2 : 8 * (w + 1) = 8 * w + 8 := by ring
      rw [h2, pow_add] at h
      omega
    simp [natToBytesLE, bytesToNatLE, ih (n / 256) hd]
    omega

theorem orient_orient (little : Bool) (bs : List Nat) :
    (if little then orient little bs else (orient little bs).reverse) = bs := by
  cases little <;> simp [orient]

theorem orient_length (little : Bool) (bs : List Nat) :
    (orient little bs).length = bs.length := by
  cases little <;> simp [orient]

/-! ### UTF-8 round trip -/

theorem utf8DecodeF_nil (fuel : Nat) : utf8DecodeF fuel [] = some [] := by
  cases fuel <;> rfl

theorem utf8DecodeF_encode (s : List Nat) (hv : ∀ c ∈ s, c < 1114112) :
    ∀ fuel, (utf8Encode s).length ≤ fuel → utf8DecodeF fuel (utf8Encode s) = some s := by
  induction s with
  | nil => intro fuel _; simpa [utf8Encode] using utf8DecodeF_nil fuel
  | cons c s ih =>
    intro fuel hfuel
    have hc : c < 1114112 := hv c (List.mem_cons_self c s)
    have hv' : ∀ x ∈ s, x < 1114112 := fun x hx => hv x (List.mem_cons_of_mem c hx)
    have henc : utf8Encode (c :: s) = utf8EncodeChar c ++ utf8Encode s := by
      simp [utf8Encode]
    rw [henc] at hfuel ⊢
    by_cases h1 : c < 128
    · have hch : utf8EncodeChar c = [c] := by simp [utf8EncodeChar, h1]
      rw [hch] at hfuel ⊢
      obtain ⟨f, rfl⟩ : ∃ f, fuel = f + 1 := by
        cases fuel with
        | zero => simp at hfuel
        | succ f => exact ⟨f, rfl⟩
      have hrest : (utf8Encode s).length ≤ f := by simp at hfuel; omega
      simp only [List.cons_append, List.nil_append, utf8DecodeF, if_pos h1]
      simp only [List.append_eq, List.nil_append]
      rw [ih hv' f hrest]
      rfl
    · by_cases h2 : c < 2048
      · have hch : utf8EncodeChar c = [192 + c / 64, 128 + c % 64] := by
          simp [utf8EncodeChar, h1, h2]
        rw [hch] at hfuel ⊢
        obtain ⟨f, rfl⟩ : ∃ f, fuel = f + 1 := by
          cases fuel with
          | zero => simp at hfuel
          | succ f => exact ⟨f, rfl⟩
        have hrest : (utf8Encode s).length ≤ f := by simp at hfuel; omega
        have c1 : ¬192 + c / 64 < 128 := by omega
        have c2 : ¬192 + c / 64 < 192 := by omega
        have c3 : 192 + c / 64 < 224 := by omega
        have c4 : 128 ≤ 128 + c % 64 ∧ 128 + c % 64 < 192 := by omega
        simp only [List.cons_append, List.nil_append, utf8DecodeF,
          if_neg c1, if_neg c2, if_pos c3, if_pos c4]
        simp only [List.append_eq, List.cons_append, List.nil_append, if_pos c4]
        have hval : (192 + c / 64 - 192) * 64 + (128 + c % 64 - 128) = c := by omega
        rw [hval, ih hv' f hrest]
        rfl
      · by_cases h3 : c < 65536
        · have hch : utf8EncodeChar c =
              [224 + c / 4096, 128 + c / 64 % 64, 128 + c % 64] := by
            simp [utf8EncodeChar, h1, h2, h3]
          rw [hch] at hfuel ⊢
          obtain ⟨f, rfl⟩ : ∃ f, fuel = f + 1 := by
            cases fuel with
            | zero => simp at hfuel
            | succ f => exact ⟨f, rfl⟩
          have hrest : (utf8Encode s).length ≤ f := by simp at hfuel; omega
          have c1 : ¬224 + c / 4096 < 128 := by omega
          have c2 : ¬224 + c / 4096 < 192 := by omega
          have c3 : ¬224 + c / 4096 < 224 := by omega
          have c4 : 224 + c / 4096 < 240 := by omega
          have c5 : (128 ≤ 128 + c / 64 % 64 ∧ 128 + c / 64 % 64 < 192) ∧
              128 ≤ 128 + c % 64 ∧ 128 + c % 64 < 192 := by omega
          simp only [List.cons_append, List.nil_append, utf8DecodeF,
            if_neg c1, if_neg c2, if_neg c3, if_pos c4, if_pos c5]
          simp only [List.append_eq, List.cons_append, List.nil_append, if_pos c5]
          have hval : (224 + c / 4096 - 224) * 4096 + (128 + c / 64 % 64 - 128) * 64 +
              (128 + c % 64 - 128) = c := by omega
          rw [hval, ih hv' f hrest]
          rfl
        · have hch : utf8EncodeChar c =
              [240 + c / 262144, 128 + c / 4096 % 64, 128 + c / 64 % 64, 128 + c % 64] := by
            simp [utf8EncodeChar, h1, h2, h3]
          rw [hch] at hfuel ⊢
          obtain ⟨f, rfl⟩ : ∃ f, fuel = f + 1 := by
            cases fuel with
            | zero => simp at hfuel
            | succ f => exact ⟨f, rfl⟩
          have hrest : (utf8Encode s).length ≤ f := by simp at hfuel; omega
          have c1 : ¬240 + c / 262144 < 128 := by omega
          have c2 : ¬240 + c / 262144 < 192 := by omega
          have c3 : ¬240 + c / 262144 < 224 := by omega
          have c4 : ¬240 + c / 262144 < 240 := by omega
          have c5 : 240 + c / 262144 < 248 := by omega
          have c6 : (128 ≤ 128 + c / 4096 % 64 ∧ 128 + c / 4096 % 64 < 192) ∧
              (128 ≤ 128 + c / 64 % 64 ∧ 128 + c / 64 % 64 < 192) ∧
              128 ≤ 128 + c % 64 ∧ 128 + c % 64 < 192 := by omega
          simp only [List.cons_append, List.nil_append, utf8DecodeF,
            if_neg c1, if_neg c2, if_neg c3, if_neg c4, if_pos c5, if_pos c6]
          simp only [List.append_eq, List.cons_append, List.nil_append, if_pos c6]
          have hval : (240 + c / 262144 - 240) * 262144 + (128 + c / 4096 % 64 - 128) * 4096 +
              (128 + c / 64 % 64 - 128) * 64 + (128 + c % 64 - 128) = c := by omega
          rw [hval, ih hv' f hrest]
          rfl

theorem utf8Decode_encode (s : List Nat) (hv : ∀ c ∈ s, c < 1114112) :
    utf8Decode (utf8Encode s) = some s :=
  utf8DecodeF_encode s hv (utf8Encode s).length le_rfl

/-! ### Unsigned pack/unpack round trip -/

theorem int_mod_toNat (w n : Nat) (h : n < 2 ^ w) : ((n : Int) % 2 ^ w).toNat = n := by
  rw [Int.emod_eq_of_lt (by positivity) (by exact_mod_cast h)]
  simp

theorem packCode_unsigned (little : Bool) (c : Char)
    (hc : c = 'B' ∨ c = 'H' ∨ c = 'I' ∨ c = 'Q') (n : Nat)
    (hn : n < 2 ^ (8 * codeWidth c)) :
    packCode little c (.int n) = .ok (orient little (natToBytesLE (codeWidth c) n)) := by
  rcases hc with rfl | rfl | rfl | rfl <;>
  · have hn' := hn
    simp only [codeWidth] at hn'
    norm_num at hn'
    simp only [packCode, intRange, pyIndex]
    rw [if_pos (by constructor <;> omega), int_mod_toNat _ n hn]

theorem unpackCode_unsigned (little : Bool) (c : Char)
    (hc : c = 'B' ∨ c = 'H' ∨ c = 'I' ∨ c = 'Q') (n : Nat)
    (hn : n < 2 ^ (8 * codeWidth c)) :
    unpackCode little c (orient little (natToBytesLE (codeWidth c) n)) = .int n := by
  have key : ∀ bs : List Nat,
      (if little then orient little bs else (orient little bs).reverse) = bs :=
    orient_orient little
  rcases hc with rfl | rfl | rfl | rfl <;>
  · simp only [codeWidth] at hn ⊢
    simp only [unpackCode, key]
    rw [bytesToNatLE_natToBytesLE _ n (by simpa using hn)]

/-! ### Branch characterizations of the encoder and decoder dispatch -/

theorem get_format_string_mk_name (n1 n2 t : String) (c : Int) :
    Attribute.get_format_string ⟨n1, t, c⟩ = Attribute.get_format_string ⟨n2, t, c⟩ := by
  simp [Attribute.get_format_string]

theorem unpackAtt_mk_name (little : Bool) (n1 n2 t : String) (c : Int) (stream : List Nat) :
    unpackAtt little ⟨n1, t, c⟩ stream = unpackAtt little ⟨n2, t, c⟩ stream := by
  simp [unpackAtt, Attribute.get_format_string]

theorem encodeAttr_unrecognized (little seq : Bool) (blockAtts : List Attribute)
    (mesh : MeshModel) (st : EncSt) (att : Attribute)
    (h1 : att.name ≠ "position") (h2 : att.name ≠ "vertex") (h3 : att.name ≠ "normal")
    (h4 : att.name ≠ "texcoord") (h5 : att.name ≠ "face") (h6 : att.name ≠ "face_normal")
    (h7 : att.name ≠ "face_texcoord") (hcnt : isCountAttr att.name = false)
    (hstr : att.type ≠ "string") :
    encodeAttr little seq blockAtts mesh st att = (do
      let fmt ← att.get_format_string
      let bs ← structPack little fmt [.int 0]
      Except.ok (bs, st)) := by
  simp [encodeAttr, h1, h2, h3, h4, h5, h6, h7, hcnt, hstr]

theorem encodeAttr_stringBranch (little seq : Bool) (blockAtts : List Attribute)
    (mesh : MeshModel) (st : EncSt) (att : Attribute)
    (h1 : att.name ≠ "position") (h2 : att.name ≠ "vertex") (h3 : att.name ≠ "normal")
    (h4 : att.name ≠ "texcoord") (h5 : att.name ≠ "face") (h6 : att.name ≠ "face_normal")
    (h7 : att.name ≠ "face_texcoord") (hcnt : isCountAttr att.name = false)
    (hstr : att.type = "string") :
    encodeAttr little seq blockAtts mesh st att = (do
      let fmt ← att.get_format_string
      let bs ← pack_string little fmt testPlaceholder
      Except.ok (bs, st)) := by
  simp [encodeAttr, h1, h2, h3, h4, h5, h6, h7, hcnt, hstr]

theorem decodeAttr_plain (little seq : Bool) (blockAtts : List Attribute)
    (stream : List Nat) (dict : CountDict) (done : Bool) (att : Attribute)
    (h1 : att.name ≠ "position") (h5 : att.name ≠ "face") (h6 : att.name ≠ "face_normal")
    (h7 : att.name ≠ "face_texcoord") (hcnt : isCountAttr att.name = false)
    (hstr : att.type ≠ "string")
    (hdict : dictGet dict att.name = none) :
    decodeAttr little seq blockAtts stream dict done att = (do
      let (data, s1) ← unpackAtt little att stream
      let fmt ← att.get_format_string
      if fmt.length > 1 then
        Except.ok ([.attrName att.name, .tupleVal data], s1, dict, done)
      else do
        let v ← headE data
        Except.ok ([.attrName att.name, .scalarVal v], s1, dict, done)) := by
  simp [decodeAttr, decodeAttrRest, h1, h5, h6, h7, hcnt, hstr, hdict]

/-! ### Claim theorems -/

/-- C1: for the literal scenario — one triangle, positions
`[(0,0,0),(1,0,0),(0,1,0)]`, one face `(1,2,3)`, spec with 32-bit unsigned
`vertex_count`, 3 × 32-bit-float `position`, 32-bit unsigned `face_count`,
3 × 32-bit-unsigned `face`, big-endian, sequential — the encoder produces
exactly `00000003`, three 12-byte big-endian float triples, `00000001`,
and `000000010000000200000003`; decoding those bytes with the same spec
reports `vertex_count = 3`, the three position tuples, `face_count = 1`,
and the face tuple `(1,2,3)`. -/
theorem claim1_literal_scenario :
    create_binary_from_obj triSpec triMesh = .ok triBytes ∧
    binary_to_txt triSpec triBytes = .ok triDump := by
  constructor
  · decide
  · decide

/-- C4 counterexample: the claim states construction succeeds for
`face_layout = "separate"`, but the source only accepts the misspelled
`"seperate"`, so `"separate"` is rejected with a `ValueError`. -/
theorem claim4_counterexample :
    FormatSpec.make "n" [] "little" "separate" =
      .error "ValueError: invalid face format" := by
  decide

/-- C4 (amended): `FormatSpec` construction succeeds exactly when
`byte_order ∈ {little, big}` and `face_layout ∈ {sequential, seperate}`
(the source's spelling); any other value — including `byte_order =
"middle"` and the correctly spelled `"separate"` — fails with a
`ValueError` and yields no constructed spec. -/
theorem claim4_validation (n : String) (bs : List Block) (e f : String) :
    (∃ s, FormatSpec.make n bs e f = .ok s) ↔
      ((e = "little" ∨ e = "big") ∧ (f = "sequential" ∨ f = "seperate")) := by
  by_cases he : e = "little" ∨ e = "big" <;>
    by_cases hf : f = "sequential" ∨ f = "seperate" <;>
    simp [FormatSpec.make, he, hf]

/-- C5 counterexample: the claim states cardinality `< 1` fails with an
`InvalidCardinality` error, but `Attribute` construction accepts
cardinality 0 without complaint. -/
theorem claim5_counterexample :
    Attribute.make "x" "uint8" 0 = .ok ⟨"x", "uint8", 0⟩ := by
  decide

/-- C5 (amended): `Attribute` construction validates only the data type
(`ValueError` for an unregistered type); the cardinality is stored
unchecked, so construction succeeds for every cardinality, including
zero and negative values. -/
theorem claim5_validation (n t : String) (c : Int) :
    (∃ a, Attribute.make n t c = .ok a) ↔ is_valid_type t = true := by
  by_cases h : is_valid_type t <;> simp [Attribute.make, h]

/-- C8: for every mesh model, attribute type and cardinality (and any
codec state), an attribute named `"position"` and an otherwise identical
attribute named `"vertex"` make the encoder emit byte-identical output
for that attribute — both take the branch that emits every entry of the
positions array. -/
theorem packRows_eq_of_fmt (little : Bool) (a b : Attribute)
    (h : a.get_format_string = b.get_format_string) :
    ∀ rows, packRows little a rows = packRows little b rows := by
  intro rows
  induction rows with
  | nil => rfl
  | cons r rs ih => simp [packRows, h, ih]

theorem claim8_synonym (little seq : Bool) (blockAtts : List Attribute)
    (mesh : MeshModel) (st : EncSt) (t : String) (c : Int) :
    encodeAttr little seq blockAtts mesh st ⟨"position", t, c⟩ =
      encodeAttr little seq blockAtts mesh st ⟨"vertex", t, c⟩ := by
  simp only [encodeAttr]
  norm_num
  rw [packRows_eq_of_fmt little ⟨"position", t, c⟩ ⟨"vertex", t, c⟩ rfl]

/-- C10: type validity is exactly membership in the 13-entry registry,
and in particular `"float32"` and `"float64"` are not valid, so building
an `Attribute` with them fails. -/
theorem claim10_registry :
    (∀ t : String, is_valid_type t = true ↔
        t ∈ ["int8", "int16", "int32", "int64", "uint8", "uint16", "uint32",
             "uint64", "float", "double", "char", "string", "bool"]) ∧
    Attribute.make "a" "float32" 1 = .error "ValueError: invalid data type" ∧
    Attribute.make "a" "float64" 1 = .error "ValueError: invalid data type" := by
  refine ⟨fun t => ?_, by decide, by decide⟩
  constructor
  · intro hv
    by_contra hmem
    simp only [List.mem_cons, List.not_mem_nil, or_false, not_or] at hmem
    obtain ⟨a1, a2, a3, a4, a5, a6, a7, a8, a9, a10, a11, a12, a13⟩ := hmem
    have b1 : (t == "int8") = false := beq_eq_false_iff_ne.mpr a1
    have b2 : (t == "int16") = false := beq_eq_false_iff_ne.mpr a2
    have b3 : (t == "int32") = false := beq_eq_false_iff_ne.mpr a3
    have b4 : (t == "int64") = false := beq_eq_false_iff_ne.mpr a4
    have b5 : (t == "uint8") = false := beq_eq_false_iff_ne.mpr a5
    have b6 : (t == "uint16") = false := beq_eq_false_iff_ne.mpr a6
    have b7 : (t == "uint32") = false := beq_eq_false_iff_ne.mpr a7
    have b8 : (t == "uint64") = false := beq_eq_false_iff_ne.mpr a8
    have b9 : (t == "float") = false := beq_eq_false_iff_ne.mpr a9
    have b10 : (t == "double") = false := beq_eq_false_iff_ne.mpr a10
    have b11 : (t == "char") = false := beq_eq_false_iff_ne.mpr a11
    have b12 : (t == "string") = false := beq_eq_false_iff_ne.mpr a12
    have b13 : (t == "bool") = false := beq_eq_false_iff_ne.mpr a13
    simp [is_valid_type, STRUCT_FORMAT_MAP, List.lookup, b1, b2, b3, b4, b5,
      b6, b7, b8, b9, b10, b11, b12, b13] at hv
  · intro hmem
    fin_cases hmem <;> decide

/-- C2 counterexample: the claim asserts the zero fallback works for every
cardinality ≥ 1, but with cardinality 2 the fallback packs one value
against a two-element format and `struct.pack` raises, so encoding a spec
with an unrecognized two-element attribute is an error. -/
theorem claim2_counterexample :
    create_binary_from_obj specMystery2 triMesh =
      .error "struct.error: pack expected items" := by
  decide

/-- C2 (amended): for an attribute whose name matches no recognized
pattern, of any numeric/float/bool type with cardinality 1, the encoder
emits a single zero-valued scalar of the declared type, and decoding that
field with the same spec reads it back as the zero value of the type; the
fallback fails for cardinality ≥ 2 (argument-count mismatch) and for the
char type (type mismatch). -/
theorem claim2_fallback (little seq : Bool) (blockAtts : List Attribute)
    (mesh : MeshModel) (st : EncSt) (name t : String)
    (hn : name ∉ ["position", "vertex", "normal", "texcoord", "face",
      "face_normal", "face_texcoord"])
    (hcnt : isCountAttr name = false)
    (ht : t ∈ ["int8", "int16", "int32", "int64", "uint8", "uint16", "uint32",
      "uint64", "float", "double", "bool"]) :
    encodeAttr little seq blockAtts mesh st ⟨name, t, 1⟩ = .ok (zeroBytesOf t, st) ∧
    decodeAttr little seq blockAtts (zeroBytesOf t) [] false ⟨name, t, 1⟩ =
      .ok ([.attrName name, .scalarVal (zeroValOf t)], [], [], false) := by
  simp only [List.mem_cons, List.not_mem_nil, or_false, not_or] at hn
  obtain ⟨h1, h2, h3, h4, h5, h6, h7⟩ := hn
  fin_cases ht <;>
    exact ⟨by
      rw [encodeAttr_unrecognized little seq blockAtts mesh st _ h1 h2 h3 h4 h5
        h6 h7 hcnt (by simp), get_format_string_mk_name name "z"]
      cases little <;> rfl,
    by
      rw [decodeAttr_plain little seq blockAtts _ [] false _ h1 h5 h6 h7 hcnt
        (by simp) rfl, unpackAtt_mk_name little name "z",
        get_format_string_mk_name name "z"]
      cases little <;> rfl⟩

/-- C2 witness: the amended fallback at the concrete attribute
`("mystery", uint32, 1)`. -/
theorem claim2_fallback_witness :
    encodeAttr false true [] triMesh ⟨[], [], []⟩ ⟨"mystery", "uint32", 1⟩ =
      .ok (zeroBytesOf "uint32", ⟨[], [], []⟩) ∧
    decodeAttr false true [] (zeroBytesOf "uint32") [] false ⟨"mystery", "uint32", 1⟩ =
      .ok ([.attrName "mystery", .scalarVal (zeroValOf "uint32")], [], [], false) :=
  claim2_fallback false true [] triMesh ⟨[], [], []⟩ "mystery" "uint32"
    (by decide) (by decide) (by decide)

/-! Face-branch shapes of the encoder, used for C3. -/

theorem encodeAttr_face (little : Bool) (blockAtts : List Attribute)
    (mesh : MeshModel) (st : EncSt) (att : Attribute) (hname : att.name = "face") :
    encodeAttr little true blockAtts mesh st att = (do
      let bs ← emitFaceLoop little true blockAtts att "face_normal" st.face_normals
        "face_texcoord" st.face_texcoords 0 st.faces
      Except.ok (bs, { st with face_normals := [], face_texcoords := [] })) := by
  simp [encodeAttr, hname]

theorem encodeAttr_face_normal (little : Bool) (blockAtts : List Attribute)
    (mesh : MeshModel) (st : EncSt) (att : Attribute) (hname : att.name = "face_normal") :
    encodeAttr little true blockAtts mesh st att = (do
      let bs ← emitFaceLoop little true blockAtts att "face_texcoord" st.face_texcoords
        "face" st.faces 0 st.face_normals
      Except.ok (bs, { st with faces := [], face_texcoords := [] })) := by
  simp [encodeAttr, hname]

theorem encodeAttr_face_texcoord (little : Bool) (blockAtts : List Attribute)
    (mesh : MeshModel) (st : EncSt) (att : Attribute) (hname : att.name = "face_texcoord") :
    encodeAttr little true blockAtts mesh st att = (do
      let bs ← emitFaceLoop little true blockAtts att "face_normal" st.face_normals
        "face" st.faces 0 st.face_texcoords
      Except.ok (bs, { st with faces := [], face_normals := [] })) := by
  simp [encodeAttr, hname]

/-- C3 counterexample: the claim says that after a `"face"` attribute is
processed under the sequential layout all three face arrays are drained
and a later `"face"` attribute emits nothing; in fact `faces` is not
drained, and a second `"face"` attribute in the same block re-emits the
face bytes in full. -/
theorem claim3_counterexample :
    create_binary_from_obj specDoubleFace triMesh =
      .ok ([0, 0, 0, 1, 0, 0, 0, 2, 0, 0, 0, 3] ++
           [0, 0, 0, 1, 0, 0, 0, 2, 0, 0, 0, 3]) := by
  decide

/-- C3 (amended): under the sequential layout, a successful encode of an
attribute named `"face"` drains `face_normals` and `face_texcoords` but
leaves `faces` untouched; consequently every later attribute named
`"face_normal"` or `"face_texcoord"` in the block emits zero bytes, while
a later `"face"` attribute would re-emit the faces. -/
theorem claim3_drain (little : Bool) (blockAtts : List Attribute) (mesh : MeshModel)
    (st : EncSt) (att att2 : Attribute) (bs bs2 : List Nat) (st1 st2 : EncSt)
    (hname : att.name = "face")
    (henc : encodeAttr little true blockAtts mesh st att = .ok (bs, st1))
    (hname2 : att2.name = "face_normal" ∨ att2.name = "face_texcoord")
    (henc2 : encodeAttr little true blockAtts mesh st1 att2 = .ok (bs2, st2)) :
    st1.faces = st.faces ∧ st1.face_normals = [] ∧ st1.face_texcoords = [] ∧
      bs2 = [] := by
  rw [encodeAttr_face little blockAtts mesh st att hname] at henc
  cases hres : emitFaceLoop little true blockAtts att "face_normal" st.face_normals
      "face_texcoord" st.face_texcoords 0 st.faces with
  | error e => rw [hres] at henc; exact Except.noConfusion henc
  | ok v =>
    rw [hres] at henc
    have henc' : (Except.ok (v, ({ st with face_normals := [], face_texcoords := [] } : EncSt)) : Except String (List Nat × EncSt)) = .ok (bs, st1) := henc
    have hpair := Except.ok.inj henc'
    have hst : ({ st with face_normals := [], face_texcoords := [] } : EncSt) = st1 :=
      congrArg Prod.snd hpair
    subst hst
    refine ⟨rfl, rfl, rfl, ?_⟩
    rcases hname2 with hn2 | hn2
    · rw [encodeAttr_face_normal little blockAtts mesh _ att2 hn2] at henc2
      simp only [emitFaceLoop] at henc2
      have h2 : (Except.ok (([] : List Nat), (⟨[], [], []⟩ : EncSt)) : Except String (List Nat × EncSt)) = .ok (bs2, st2) := henc2
      exact (congrArg Prod.fst (Except.ok.inj h2)).symm
    · rw [encodeAttr_face_texcoord little blockAtts mesh _ att2 hn2] at henc2
      simp only [emitFaceLoop] at henc2
      have h2 : (Except.ok (([] : List Nat), (⟨[], [], []⟩ : EncSt)) : Except String (List Nat × EncSt)) = .ok (bs2, st2) := henc2
      exact (congrArg Prod.fst (Except.ok.inj h2)).symm

/-- C3 witness: the amended drain behavior at the concrete block
`[face, face_normal]` over the one-triangle mesh. -/
theorem claim3_drain_witness :
    stTriAfter.faces = stTri.faces ∧ stTriAfter.face_normals = [] ∧
      stTriAfter.face_texcoords = [] ∧ ([] : List Nat) = [] :=
  claim3_drain false [faceAtt, faceNormalAtt] triMesh stTri faceAtt faceNormalAtt
    faceBytesW [] stTriAfter ⟨[], [], []⟩ rfl (by decide) (Or.inl rfl) (by decide)

set_option maxRecDepth 4000 in
/-- C6 counterexample: the claim quantifies over every string and every
supported length-prefix width, but a 256-byte string cannot be packed
with the (default, and supported) 8-bit prefix — `struct.pack` raises an
out-of-range error, so no bytes are produced to round-trip. -/
theorem claim6_counterexample :
    pack_string false defaultLengthFormat (List.replicate 256 97) =
      .error "struct.error: argument out of range" := by
  decide

/-- C6 (amended): the string codec round-trips for every UTF-8 text whose
encoded byte length fits the chosen fixed-width unsigned length-prefix
format (either byte order): packing yields the length prefix followed by
the UTF-8 bytes, and unpacking that yields the text back with the stream
fully consumed.  Texts whose encoding exceeds the prefix range fail to
pack. -/
theorem claim6_roundtrip (little : Bool) (c : Char) (s : List Nat)
    (hc : c = 'B' ∨ c = 'H' ∨ c = 'I' ∨ c = 'Q')
    (hs : ∀ ch ∈ s, ch < 1114112)
    (hlen : (utf8Encode s).length < 2 ^ (8 * codeWidth c)) :
    pack_string little [c] s =
      .ok (orient little (natToBytesLE (codeWidth c) (utf8Encode s).length) ++
        utf8Encode s) ∧
    unpack_string little [c]
      (orient little (natToBytesLE (codeWidth c) (utf8Encode s).length) ++
        utf8Encode s) =
      .ok (s, []) := by
  have hpack := packCode_unsigned little c hc (utf8Encode s).length hlen
  set pfx := orient little (natToBytesLE (codeWidth c) (utf8Encode s).length) with hpfx
  have hpfxlen : pfx.length = codeWidth c := by
    rw [hpfx, orient_length, natToBytesLE_length]
  constructor
  · simp [pack_string, structPack, packList, hpack]
    show (Except.ok ((pfx ++ []) ++ utf8Encode s) : Except String (List Nat)) =
      Except.ok (pfx ++ utf8Encode s)
    simp
  · have hcalc : structCalcsize [c] = codeWidth c := by simp [structCalcsize]
    have htakeall : pfx.take (codeWidth c) = pfx := by
      rw [← hpfxlen]
      exact List.take_length pfx
    have hchop : unpackChop little [c] pfx = [.int ((utf8Encode s).length : Int)] := by
      simp only [unpackChop, htakeall]
      rw [hpfx, unpackCode_unsigned little c hc _ hlen]
    have hneg : ¬(((utf8Encode s).length : Int) < 0) :=
      (Int.natCast_nonneg (utf8Encode s).length).not_lt
    simp only [unpack_string, hcalc, List.take_left' hpfxlen, List.drop_left' hpfxlen,
      hpfxlen, if_pos rfl, hchop, List.head?, hneg, if_neg hneg, Int.toNat_natCast,
      List.take_length, utf8Decode_encode s hs, List.drop_length, ite_true, ite_false,
      if_true, if_false]

/-- C6 witness: the amended round trip at the concrete text `"hi"` with
the 8-bit prefix. -/
theorem claim6_roundtrip_witness :
    pack_string false ['B'] [104, 105] =
      .ok (orient false (natToBytesLE (codeWidth 'B') (utf8Encode [104, 105]).length) ++
        utf8Encode [104, 105]) ∧
    unpack_string false ['B']
      (orient false (natToBytesLE (codeWidth 'B') (utf8Encode [104, 105]).length) ++
        utf8Encode [104, 105]) =
      .ok ([104, 105], []) :=
  claim6_roundtrip false 'B' [104, 105] (Or.inl rfl) (by decide) (by decide)

/-- C7 counterexample: the claim says the default length prefix is 16-bit,
but packing `"a"` with the default writes a single-byte prefix: the output
is `[1, 97]`, which is not a 16-bit-prefixed form in either byte order. -/
theorem claim7_counterexample :
    pack_string false defaultLengthFormat [97] = .ok [1, 97] ∧
      [1, 97] ≠ [0, 1, 97] ∧ [1, 97] ≠ [1, 0, 97] := by
  decide

/-- C7 (amended): the default length-prefix format of `pack_string` is the
8-bit unsigned `"B"`: with the default configuration, packing any text
whose UTF-8 encoding is shorter than 256 bytes writes its encoded byte
length as a one-byte prefix followed by the UTF-8 bytes. -/
theorem claim7_default (little : Bool) (s : List Nat)
    (h : (utf8Encode s).length < 256) :
    pack_string little defaultLengthFormat s =
      .ok ((utf8Encode s).length :: utf8Encode s) := by
  have hb : (utf8Encode s).length < 2 ^ (8 * codeWidth 'B') := by
    simpa [codeWidth] using h
  have hpack := packCode_unsigned little 'B' (Or.inl rfl) (utf8Encode s).length hb
  have h1 : natToBytesLE (codeWidth 'B') (utf8Encode s).length =
      [(utf8Encode s).length] := by
    simp [codeWidth, natToBytesLE, Nat.mod_eq_of_lt h]
  have h2 : orient little [(utf8Encode s).length] = [(utf8Encode s).length] := by
    cases little <;> simp [orient]
  simp [pack_string, defaultLengthFormat, structPack, packList, hpack, h1, h2]
  show (Except.ok (([(utf8Encode s).length] ++ []) ++ utf8Encode s) :
    Except String (List Nat)) = Except.ok ((utf8Encode s).length :: utf8Encode s)
  simp

/-- C7 witness: the amended default-prefix behavior at the concrete text
`"a"`. -/
theorem claim7_default_witness :
    pack_string true defaultLengthFormat [97] =
      .ok ((utf8Encode [97]).length :: utf8Encode [97]) :=
  claim7_default true [97] (by decide)

/-- C9 counterexample: the claim says every spec containing a string-typed
attribute fails to encode, but a string-typed attribute named
`"bar_count"` is diverted into the count branch (unknown stem), which
writes nothing, so the spec encodes successfully to the empty byte
string. -/
theorem claim9_counterexample :
    create_binary_from_obj specBarCount triMesh = .ok [] := by
  decide

/-- C9 (amended): whenever a string-typed attribute actually reaches the
encoder's string branch — its name matches none of the mesh-array,
face, or `<stem>_count` patterns — encoding fails: the branch passes the
attribute's repeated two-character `Bs` format together with the single
length value to `struct.pack`, whose argument count can never match, so
the branch raises on every input.  Specs whose string-typed attributes
are all diverted to other branches can still encode. -/
theorem claim9_string_attr (little seq : Bool) (blockAtts : List Attribute)
    (mesh : MeshModel) (st : EncSt) (name : String) (c : Int)
    (h1 : name ≠ "position") (h2 : name ≠ "vertex") (h3 : name ≠ "normal")
    (h4 : name ≠ "texcoord") (h5 : name ≠ "face") (h6 : name ≠ "face_normal")
    (h7 : name ≠ "face_texcoord") (hcnt : isCountAttr name = false) :
    encodeAttr little seq blockAtts mesh st ⟨name, "string", c⟩ =
      .error "struct.error: pack expected items" := by
  rw [encodeAttr_stringBranch little seq blockAtts mesh st _ h1 h2 h3 h4 h5 h6 h7
    hcnt rfl, get_format_string_mk_name name "z"]
  have hfmt : Attribute.get_format_string ⟨"z", "string", c⟩ =
      .ok (List.replicate c.toNat ['B', 's']).flatten := rfl
  rw [hfmt]
  have hlen : ((List.replicate c.toNat ['B', 's']).flatten).length = c.toNat * 2 := by
    simp [List.length_flatten, List.map_replicate, List.sum_replicate, smul_eq_mul]
  have hcond : ¬([PyVal.int ((utf8Encode testPlaceholder).length : Int)].length =
      ((List.replicate c.toNat ['B', 's']).flatten).length) := by
    simp only [List.length_cons, List.length_nil, hlen]
    omega
  show (do
      let bs ← pack_string little (List.replicate c.toNat ['B', 's']).flatten
        testPlaceholder
      Except.ok (bs, st) : Except String (List Nat × EncSt)) =
    Except.error "struct.error: pack expected items"
  simp only [pack_string, structPack, if_neg hcond]
  rfl

/-- C9 witness: the amended string-branch failure at the concrete
attribute `("foo", string, 1)`. -/
theorem claim9_string_attr_witness :
    encodeAttr false true [] triMesh ⟨[], [], []⟩ ⟨"foo", "string", 1⟩ =
      .error "struct.error: pack expected items" :=
  claim9_string_attr false true [] triMesh ⟨[], [], []⟩ "foo" 1 (by decide)
    (by decide) (by decide) (by decide) (by decide) (by decide) (by decide)
    (by decide)

end C3D
